import Mathlib

set_option maxHeartbeats 1000000

/-!
Shallow embedding of the GopherAI-Resume chat/RAG backend.

The definitions below are translated from the Go sources:

* `internal/app` — `ChatService` (SendMessage / StreamMessage / GetHistory,
  `resolveLLM`, `trimMessages`, `maskSecret`) and `RAGService`
  (`chunkText`, `cosineSimilarity`, `topKScored`);
* `internal/repository` — `MessageRepository.ListBySessionID`;
* `internal/worker` — `MessagePersistWorker.Start`'s delivery loop.

External collaborators (MySQL via GORM, Redis, RabbitMQ, the LLM gateway) are
modelled as oracles: each network call's outcome is a field of an environment
record, and the service code is embedded as a pure function of that
environment which also returns the trace of collaborator calls it performed.
Go `string` is modelled as Lean `String` (with `String.trim` for
`strings.TrimSpace`), Go `uint`/`int64` timestamps as `Nat`, Go `int` as
`Int` where sign matters, and Go slices as `List`.
-/

namespace GopherAI

/-- Go struct `model.Message` (`src/unnamed/part_003`): one chat-message row.
`CreatedAt` is modelled as a natural-number timestamp. -/
structure Message where
  sessionID : Nat
  userID : Nat
  role : String
  content : String
  createdAt : Nat
deriving DecidableEq, Repr

/-- One pass of the `for i := 0; i < len(runes)` loop of `chunkText`
(`src/internal/app/rag_service.go:332-343`), acting on the remaining suffix
`runes[i:]` of the rune slice.  `s1 + 1` is the loop step `size - overlap`,
which is always ≥ 1 after the guards in `chunkText`.  Each iteration emits
`runes[i:min(i+size, len)]`, advances `i` by the step, and `break`s exactly
when the advanced `i` reaches or passes the end of the slice. -/
def chunkLoop (size s1 : Nat) : List Char → List (List Char)
  | [] => []
  | c :: cs =>
    (c :: cs).take size ::
      (if s1 < cs.length then chunkLoop size s1 (cs.drop s1) else [])
termination_by l => l.length
decreasing_by
  simp only [List.length_drop, List.length_cons]
  omega

/-- Function `chunkText` (`src/internal/app/rag_service.go:323-345`): splits the rune
sequence of `text` into overlapping windows of `size` runes advancing by
`size - overlap`.  Go `int` parameters are modelled as `Int`, the rune slice
as `List Char`. -/
def chunkText (text : List Char) (size overlap : Int) : List (List Char) :=
  let size2 : Int := if size ≤ 0 then 512 else size
  let overlap2 : Int := if overlap ≥ size2 then size2 / 2 else overlap
  chunkLoop size2.toNat ((size2 - overlap2).toNat - 1) text

/-- Outcome of a collaborator call that returns `(value, error)` in Go.
Errors are opaque to the service code, so they carry no payload. -/
inductive Res (α : Type) where
  | err : Res α
  | ok : α → Res α
deriving DecidableEq, Repr

/-- Errors surfaced by `ChatService` (`src/unnamed/part_007:14-19` and
`ErrInvalidInput` from the auth service).  Wrapped repository and LLM errors
are opaque and collapse to `repoFailure` / `llmFailure`. -/
inductive ChatError where
  | invalidInput
  | messageEmpty
  | sessionNotFound
  | llmConfig
  | messageEnqueue
  | repoFailure
  | llmFailure
deriving DecidableEq, Repr

/-- Result of a `ChatService` method: a typed error or a value. -/
inductive CRes (α : Type) where
  | failure : ChatError → CRes α
  | success : α → CRes α
deriving DecidableEq, Repr

/-- Model of `strings.TrimSpace` over the character list of the string.
Go trims Unicode white space; `Char.isWhitespace` (space, tab, CR, LF) covers
the characters that occur in this development. -/
def trimSpace (s : String) : String :=
  .mk (((s.toList.dropWhile Char.isWhitespace).reverse.dropWhile
    Char.isWhitespace).reverse)

/-- Go struct `model.Session` (`src/unnamed/part_001`): a chat session row. -/
structure Session where
  id : Nat
  userID : Nat
  title : String
deriving DecidableEq, Repr

/-- Go struct `ai.ChatConfig` (`src/internal/ai/openai_compatible.go:20-24`). -/
structure ChatConfig where
  baseURL : String
  apiKey : String
  model : String
deriving DecidableEq, Repr

/-- Go struct `app.LLMOverride` (`src/unnamed/part_007:67-71`). -/
structure LLMOverride where
  baseURL : String
  apiKey : String
  model : String
deriving DecidableEq, Repr

/-- Method `ChatService.resolveLLM` (`src/unnamed/part_007:333-348`): overlay the
override on the default config field by field (trimmed, only when non-empty
after trimming), then reject if any merged field is the empty string. -/
def resolveLLM (defaultLLM : ChatConfig) (override : LLMOverride) :
    CRes ChatConfig :=
  let cfg := defaultLLM
  let cfg := if trimSpace override.baseURL ≠ "" then
    { cfg with baseURL := trimSpace override.baseURL } else cfg
  let cfg := if trimSpace override.apiKey ≠ "" then
    { cfg with apiKey := trimSpace override.apiKey } else cfg
  let cfg := if trimSpace override.model ≠ "" then
    { cfg with model := trimSpace override.model } else cfg
  if cfg.baseURL = "" ∨ cfg.apiKey = "" ∨ cfg.model = "" then
    .failure .llmConfig
  else .success cfg

/-- Function `maskSecret` (`src/unnamed/part_007:350-355`), with Go byte indexing
modelled as character indexing (API keys are ASCII). -/
def maskSecret (secret : String) : String :=
  if secret.toList.length ≤ 8 then "****"
  else
    .mk (secret.toList.take 4
      ++ List.replicate (secret.toList.length - 8) '*'
      ++ secret.toList.drop (secret.toList.length - 4))

/-- Function `trimMessages` (`src/unnamed/part_007:326-331`): keep the most recent
`limit` entries (`messages[len-limit:]`) unless `limit` is non-positive or
not smaller than the list length. -/
def trimMessages (messages : List Message) (limit : Int) : List Message :=
  if limit ≤ 0 ∨ limit ≥ (messages.length : Int) then messages
  else messages.drop (messages.length - limit.toNat)

/-- Stable insertion (by `createdAt`, insert after equal keys) used to model
the SQL `ORDER BY created_at ASC`. -/
def insertByTime (m : Message) : List Message → List Message
  | [] => [m]
  | x :: xs =>
    if x.createdAt ≤ m.createdAt then x :: insertByTime m xs
    else m :: x :: xs

/-- Model of the message table sorted ascending by `created_at` (ties keep
table order; the SQL leaves ties unspecified). -/
def sortByTime (l : List Message) : List Message :=
  l.foldl (fun acc m => insertByTime m acc) []

/-- Method `MessageRepository.ListBySessionID`
(`src/internal/repository/message_repository.go:63-73`): normalise `limit`
(≤ 0 or > 200 becomes 100), then
`WHERE session_id = ? ORDER BY created_at ASC LIMIT limit`. -/
def listBySessionID (db : List Message) (sessionID : Nat) (limit : Int) :
    List Message :=
  let lim : Int := if limit ≤ 0 ∨ limit > 200 then 100 else limit
  (sortByTime (db.filter (fun m => m.sessionID = sessionID))).take lim.toNat

/-- Collaborator calls performed by `ChatService.GetHistory`, in order. -/
inductive HCall where
  | getSession
  | isDirtyPre
  | cacheGet
  | storeList
  | isDirtyPost
  | cacheSet
deriving DecidableEq, Repr

/-- Oracle environment for one `GetHistory` invocation: the outcome of every
collaborator call the code can make, plus the persisted message table. -/
structure HistoryEnv where
  /-- Outcome of `sessionRepo.GetByIDAndUserID`: error, not found, or the session row. -/
  sessionResult : Res (Option Session)
  /-- First `historyCache.IsDirty`: error, or the marker's presence. -/
  dirtyPre : Res Bool
  /-- Outcome of `historyCache.GetHistory`: error, miss, or hit with the cached list. -/
  cacheValue : Res (Option (List Message))
  /-- The Message Store table backing `messageRepo.ListBySessionID`. -/
  db : List Message
  /-- Whether `messageRepo.ListBySessionID` fails. -/
  storeFails : Bool
  /-- Second `historyCache.IsDirty` (after the store read). -/
  dirtyPost : Res Bool
  /-- Whether `s.historyCache` is non-nil. -/
  hasCache : Bool
deriving DecidableEq, Repr

/-- Observable outcome of one `GetHistory` invocation: the returned value,
the trace of collaborator calls, and the value written back to the cache by
`SetHistory` (if any). -/
structure HistoryOut where
  result : CRes (List Message)
  trace : List HCall
  cacheWrite : Option (List Message)
deriving DecidableEq, Repr

/-- Store-read tail of `ChatService.GetHistory`
(`src/unnamed/part_007:243-252`): read from the Message Store, then
repopulate the cache only when a second `IsDirty` check returns a clean
no-error answer (the `SetHistory` error itself is discarded). -/
def getHistoryStore (env : HistoryEnv) (sessionID : Nat) (limit : Int)
    (t : List HCall) : HistoryOut :=
  let t := t ++ [HCall.storeList]
  if env.storeFails then ⟨.failure .repoFailure, t, none⟩
  else
    let messages := listBySessionID env.db sessionID limit
    if env.hasCache then
      match env.dirtyPost with
      | .ok false =>
        ⟨.success messages, t ++ [HCall.isDirtyPost, HCall.cacheSet],
          some messages⟩
      | _ => ⟨.success messages, t ++ [HCall.isDirtyPost], none⟩
    else ⟨.success messages, t, none⟩

/-- Method `ChatService.GetHistory` (`src/unnamed/part_007:220-253`): validate,
check ownership, then serve from the cache only when the dirty marker is
absent (no error, not dirty) and the cache read hits without error;
otherwise fall through to the Message Store. -/
def getHistory (env : HistoryEnv) (userID sessionID : Nat) (limit : Int) :
    HistoryOut :=
  if userID = 0 ∨ sessionID = 0 then ⟨.failure .invalidInput, [], none⟩
  else
    match env.sessionResult with
    | .err => ⟨.failure .repoFailure, [.getSession], none⟩
    | .ok none => ⟨.failure .sessionNotFound, [.getSession], none⟩
    | .ok (some _) =>
      if env.hasCache then
        match env.dirtyPre with
        | .ok false =>
          match env.cacheValue with
          | .ok (some cached) =>
            ⟨.success (trimMessages cached limit),
              [.getSession, .isDirtyPre, .cacheGet], none⟩
          | _ =>
            getHistoryStore env sessionID limit
              [.getSession, .isDirtyPre, .cacheGet]
        | _ => getHistoryStore env sessionID limit [.getSession, .isDirtyPre]
      else getHistoryStore env sessionID limit [.getSession]

/-- Go struct `ai.ChatMessage` (`src/internal/ai/openai_compatible.go:15-18`). -/
structure ChatMessage where
  role : String
  content : String
deriving DecidableEq, Repr

/-- Go struct `app.LLMRequestLog` (`src/unnamed/part_007:55-60`). -/
structure LLMRequestLog where
  baseURL : String
  model : String
  apiKeyMasked : String
  messages : List ChatMessage
deriving DecidableEq, Repr

/-- Go struct `app.SendMessageResult` (`src/unnamed/part_007:62-65`). -/
structure SendMessageResult where
  messages : List Message
  llmRequest : LLMRequestLog
deriving DecidableEq, Repr

/-- Go struct `app.SendMessageInput` (`src/unnamed/part_007:48-53`). -/
structure SendMessageInput where
  userID : Nat
  sessionID : Nat
  content : String
  llm : LLMOverride
deriving DecidableEq, Repr

/-- Collaborator calls performed by `SendMessage` / `StreamMessage`,
in order.  `publishUser` / `publishAssistant` are the two
`publisher.Publish` calls; `complete` is the gateway completion
(`Complete` resp. `StreamComplete`). -/
inductive CCall where
  | getSession
  | listRecent
  | markDirty
  | deleteHistory
  | publishUser
  | publishAssistant
  | complete
deriving DecidableEq, Repr

/-- Oracle environment for one `SendMessage` / `StreamMessage` invocation. -/
structure ChatEnv where
  /-- Outcome of `sessionRepo.GetByIDAndUserID`: error, not found, or the session row. -/
  sessionResult : Res (Option Session)
  /-- Field `s.defaultLLM`. -/
  defaultLLM : ChatConfig
  /-- Outcome of `messageRepo.ListRecentBySessionID` inside `buildPromptMessages`. -/
  recentResult : Res (List Message)
  /-- Whether `s.publisher` is non-nil. -/
  hasPublisher : Bool
  /-- Whether `s.historyCache` is non-nil. -/
  hasCache : Bool
  /-- Outcome of `historyCache.MarkDirty` (discarded by the source). -/
  markDirtyOk : Bool
  /-- Outcome of `historyCache.DeleteHistory` (discarded by the source). -/
  deleteHistoryOk : Bool
  /-- Whether the first `publisher.Publish` (user turn) succeeds. -/
  publishUserOk : Bool
  /-- Gateway completion: error, or the raw assistant text. -/
  completeResult : Res String
  /-- Whether the second `publisher.Publish` (assistant turn) succeeds. -/
  publishAssistantOk : Bool
  /-- Value of `time.Now()` at the user-turn construction. -/
  nowUser : Nat
  /-- Value of `time.Now()` at the assistant-turn construction. -/
  nowAssistant : Nat
deriving DecidableEq, Repr

/-- Method `ChatService.buildPromptMessages` (`src/unnamed/part_007:357-385`),
given the already-fetched recent messages: system preamble, then the
recent turns (empty role becomes `user`), then the trimmed current input
when non-empty. -/
def buildPrompt (recent : List Message) (currentUserInput : String) :
    List ChatMessage :=
  let base := (⟨"system",
      "You are a concise and helpful AI assistant."⟩ : ChatMessage)
    :: recent.map (fun item =>
      ⟨if item.role = "" then "user" else item.role, item.content⟩)
  if trimSpace currentUserInput ≠ "" then
    base ++ [⟨"user", trimSpace currentUserInput⟩]
  else base

/-- Method `ChatService.SendMessage` (`src/unnamed/part_007:145-218`), as a pure
function of the oracle environment, returning the result and the trace of
collaborator calls.  The `MarkDirty` / `DeleteHistory` outcomes are bound
and discarded exactly as the source's `_ =` assignments do. -/
def sendMessage (env : ChatEnv) (input : SendMessageInput) :
    CRes SendMessageResult × List CCall :=
  if input.userID = 0 ∨ input.sessionID = 0 then (.failure .invalidInput, [])
  else
    let content := trimSpace input.content
    if content = "" then (.failure .messageEmpty, [])
    else
      match env.sessionResult with
      | .err => (.failure .repoFailure, [.getSession])
      | .ok none => (.failure .sessionNotFound, [.getSession])
      | .ok (some _) =>
        match resolveLLM env.defaultLLM input.llm with
        | .failure e => (.failure e, [.getSession])
        | .success cfg =>
          match env.recentResult with
          | .err => (.failure .repoFailure, [.getSession, .listRecent])
          | .ok recent =>
            let promptMessages := buildPrompt recent content
            let userMessage : Message :=
              ⟨input.sessionID, input.userID, "user", content, env.nowUser⟩
            if env.hasPublisher = false then
              (.failure .messageEnqueue, [.getSession, .listRecent])
            else
              let t0 := [CCall.getSession, CCall.listRecent]
                ++ (if env.hasCache then
                      let _ := env.markDirtyOk
                      let _ := env.deleteHistoryOk
                      [CCall.markDirty, CCall.deleteHistory]
                    else [])
              let t1 := t0 ++ [CCall.publishUser]
              if env.publishUserOk = false then (.failure .messageEnqueue, t1)
              else
                let t2 := t1 ++ [CCall.complete]
                match env.completeResult with
                | .err => (.failure .llmFailure, t2)
                | .ok raw =>
                  let assistantContent :=
                    if trimSpace raw = "" then
                      "The model returned an empty response."
                    else trimSpace raw
                  let assistantMessage : Message :=
                    ⟨input.sessionID, input.userID, "assistant",
                      assistantContent, env.nowAssistant⟩
                  let t3 := t2 ++ [CCall.publishAssistant]
                  if env.publishAssistantOk = false then
                    (.failure .messageEnqueue, t3)
                  else
                    (.success
                      ⟨[userMessage, assistantMessage],
                        ⟨cfg.baseURL, cfg.model, maskSecret cfg.apiKey,
                          promptMessages⟩⟩, t3)

/-- Method `ChatService.StreamMessage` (`src/unnamed/part_007:255-324`): same
pipeline as `sendMessage` with the streaming completion, returning the
assembled full text. -/
def streamMessage (env : ChatEnv) (input : SendMessageInput) :
    CRes String × List CCall :=
  if input.userID = 0 ∨ input.sessionID = 0 then (.failure .invalidInput, [])
  else
    let content := trimSpace input.content
    if content = "" then (.failure .messageEmpty, [])
    else
      match env.sessionResult with
      | .err => (.failure .repoFailure, [.getSession])
      | .ok none => (.failure .sessionNotFound, [.getSession])
      | .ok (some _) =>
        match resolveLLM env.defaultLLM input.llm with
        | .failure e => (.failure e, [.getSession])
        | .success _cfg =>
          match env.recentResult with
          | .err => (.failure .repoFailure, [.getSession, .listRecent])
          | .ok _recent =>
            if env.hasPublisher = false then
              (.failure .messageEnqueue, [.getSession, .listRecent])
            else
              let t0 := [CCall.getSession, CCall.listRecent]
                ++ (if env.hasCache then
                      let _ := env.markDirtyOk
                      let _ := env.deleteHistoryOk
                      [CCall.markDirty, CCall.deleteHistory]
                    else [])
              let t1 := t0 ++ [CCall.publishUser]
              if env.publishUserOk = false then (.failure .messageEnqueue, t1)
              else
                let t2 := t1 ++ [CCall.complete]
                match env.completeResult with
                | .err => (.failure .llmFailure, t2)
                | .ok raw =>
                  let full :=
                    if trimSpace raw = "" then
                      "The model returned an empty response."
                    else trimSpace raw
                  let t3 := t2 ++ [CCall.publishAssistant]
                  if env.publishAssistantOk = false then
                    (.failure .messageEnqueue, t3)
                  else (.success full, t3)

/-- Go struct `model.RAGChunk` (`src/internal/model/rag_chunk.go`), restricted to the
fields `topKScored` carries along (the ranker never inspects the chunk). -/
structure RAGChunk where
  id : Nat
  documentID : Nat
  content : String
deriving DecidableEq, Repr

/-- One element of the anonymous `struct given chunk model.RAGChunk; score
float32` slice in `RAGService.Ask` / `topKScored`
(`src/internal/app/rag_service.go:280-283`).  The `float32` score enters
`topKScored` only through order comparisons, so it is modelled as `Int`. -/
structure Scored where
  chunk : RAGChunk
  score : Int
deriving DecidableEq, Repr

/-- The inner `for j := i + 1; ...` pass of `topKScored`'s exchange sort
(`src/internal/app/rag_service.go:390-396`): `a` is the value currently at
slot `i`; the result is the value left at slot `i` after the pass together
with the slots `i+1 ..` it leaves behind. -/
def selectOne (a : Scored) : List Scored → Scored × List Scored
  | [] => (a, [])
  | b :: rest =>
    if a.score < b.score then
      ((selectOne b rest).1, a :: (selectOne b rest).2)
    else
      ((selectOne a rest).1, b :: (selectOne a rest).2)

/-- The list `(selectOne a l).2` has the same length as `l`. -/
theorem selectOne_snd_length (a : Scored) (l : List Scored) :
    ((selectOne a l).2).length = l.length := by
  induction l generalizing a with
  | nil => simp [selectOne]
  | cons b rest ih =>
    by_cases h : a.score < b.score <;> simp [selectOne, h, ih]

/-- The outer `for i := 0; ...` loop of `topKScored`'s exchange sort
(`src/internal/app/rag_service.go:390-396`). -/
def sortScored : List Scored → List Scored
  | [] => []
  | a :: rest => (selectOne a rest).1 :: sortScored (selectOne a rest).2
termination_by l => l.length
decreasing_by
  simp only [List.length_cons, selectOne_snd_length]
  omega

/-- Function `topKScored` (`src/internal/app/rag_service.go:379-401`): `nil` for
`k ≤ 0` or an empty candidate list, otherwise the first `k` entries of the
exchange-sorted slice, with `k` clamped to the slice length. -/
def topKScored (scored : List Scored) (k : Int) : List Scored :=
  if k ≤ 0 ∨ scored = [] then []
  else
    let sorted := sortScored scored
    let kk : Int :=
      if k > (scored.length : Int) then (scored.length : Int) else k
    sorted.take kk.toNat

/-- The top-K resolution at the head of `RAGService.Ask`
(`src/internal/app/rag_service.go:231-234`, `defaultTopK = 5`). -/
def resolveTopK (k : Int) : Int :=
  if k ≤ 0 then 5 else k

/-- One RabbitMQ delivery as the persistence worker observes it: the decode
outcome of its payload, and whether the Message Store write would
succeed. -/
structure Delivery where
  /-- Outcome of `json.Unmarshal`: `none` on decode failure. -/
  decoded : Option Message
  /-- Whether `repo.Create` succeeds for this message. -/
  storeOk : Bool
deriving DecidableEq, Repr

/-- Broker acknowledgement sent for one delivery: `d.Ack(false)` or
`d.Nack(false, requeue)`. -/
inductive WorkerAction where
  | ack
  | nack (requeue : Bool)
deriving DecidableEq, Repr

/-- The per-delivery loop body of `MessagePersistWorker.Start`
(`src/internal/worker/message_persist_worker.go:81-105`): decode failure →
`Nack(false, false)` and `continue`; store-write failure →
`Nack(false, false)` and `continue`; success → `Ack(false)`.  The worker
runs over the whole delivery stream. -/
def runWorker : List Delivery → List WorkerAction
  | [] => []
  | d :: rest =>
    match d.decoded with
    | none => .nack false :: runWorker rest
    | some _ =>
      if d.storeOk then .ack :: runWorker rest
      else .nack false :: runWorker rest

/-- Sum of the pairwise products over the zipped vectors, the `dot` accumulator of
`cosineSimilarity` (`src/internal/app/rag_service.go:351-355`). -/
def dotAcc (a b : List ℝ) : ℝ :=
  (a.zip b).foldl (fun s p => s + p.1 * p.2) 0

/-- Sum of squares, the `normA` / `normB` accumulators of `cosineSimilarity`. -/
def sumSq (a : List ℝ) : ℝ :=
  a.foldl (fun s x => s + x * x) 0

/-- Function `cosineSimilarity` (`src/internal/app/rag_service.go:347-361`), with
`float32`/`float64` arithmetic idealised as exact real arithmetic and
`mathSqrt` (Newton's method, whose exact fixpoint is the square root) as
`Real.sqrt`.  Mismatched or empty lengths short-circuit to `0`; so does a
non-positive squared norm on either side, which guards the division. -/
noncomputable def cosineSimilarity (a b : List ℝ) : ℝ :=
  if a.length = 0 ∨ a.length ≠ b.length then 0
  else if sumSq a ≤ 0 ∨ sumSq b ≤ 0 then 0
  else dotAcc a b / (Real.sqrt (sumSq a) * Real.sqrt (sumSq b))

/-! ### Concrete fixtures used by witnesses and counterexamples -/

/-- Three persisted messages of session `7`, oldest first. -/
def msgA : Message := ⟨7, 1, "user", "m1", 1⟩

/-- Second (middle) persisted message of session `7`. -/
def msgB : Message := ⟨7, 1, "assistant", "m2", 2⟩

/-- Third (newest) persisted message of session `7`. -/
def msgC : Message := ⟨7, 1, "user", "m3", 3⟩

/-- A 25-codepoint input, the spec's `Ingest` chunking scenario. -/
def demo25 : List Char :=
  ['A', 'B', 'C', 'D', 'E', 'F', 'G', 'H', 'I', 'J', 'K', 'L', 'M',
   'N', 'O', 'P', 'Q', 'R', 'S', 'T', 'U', 'V', 'W', 'X', 'Y']

/-- A `GetHistory` environment whose dirty marker is present at both
checks. -/
def envDirty : HistoryEnv :=
  ⟨.ok (some ⟨7, 1, "t"⟩), .ok true, .ok none, [msgA, msgB, msgC],
    false, .ok true, true⟩

/-- A `GetHistory` environment with a clean marker and a cold cache over
the three-message table: the claimed most-recent-`limit` read scenario. -/
def envColdCache : HistoryEnv :=
  ⟨.ok (some ⟨7, 1, "t"⟩), .ok false, .ok none, [msgA, msgB, msgC],
    false, .ok false, true⟩

/-- A `SendMessage` environment in which the user-turn enqueue fails. -/
def envEnqueueFail : ChatEnv :=
  ⟨.ok (some ⟨7, 1, "t"⟩), ⟨"https://api", "secretkey123", "gpt"⟩,
    .ok [], true, true, true, true, false, .ok ("hi"), true, 10, 11⟩

/-- A fully successful `SendMessage` environment. -/
def envAllOk : ChatEnv :=
  ⟨.ok (some ⟨7, 1, "t"⟩), ⟨"https://api", "secretkey123", "gpt"⟩,
    .ok [], true, true, true, true, true, .ok ("hi"), true, 10, 11⟩

/-- A well-formed `SendMessage` input for session `7` by user `1`. -/
def inputHello : SendMessageInput := ⟨1, 7, "hello", ⟨"", "", ""⟩⟩

/-! ### Theorems -/

/-- C8: for every delivery the persistence worker receives, a decode failure
is negatively acknowledged without requeue, a store-write failure after a
successful decode is negatively acknowledged without requeue, and a fully
successful delivery is acknowledged; the worker emits one acknowledgement
per delivery and never stops early over any delivery stream. -/
theorem worker_acks_per_delivery_policy (ds : List Delivery) :
    runWorker ds = ds.map (fun d =>
      match d.decoded with
      | none => WorkerAction.nack false
      | some _ =>
        if d.storeOk then WorkerAction.ack else WorkerAction.nack false) ∧
    (runWorker ds).length = ds.length := by
  have h : runWorker ds = ds.map (fun d =>
      match d.decoded with
      | none => WorkerAction.nack false
      | some _ =>
        if d.storeOk then WorkerAction.ack else WorkerAction.nack false) := by
    induction ds with
    | nil => rfl
    | cons d rest ih =>
      cases hd : d.decoded <;> by_cases hb : d.storeOk = true <;>
        simp [runWorker, hd, hb, ih]
  exact ⟨h, by rw [h]; simp⟩

/-- C9: the resolved model configuration takes each of the three fields from
the override exactly when the override's field is non-empty after trimming
(and then as its trimmed value), and from the default otherwise; resolution
fails with `ErrLLMConfig` precisely when some merged field is the empty
string. -/
theorem resolveLLM_field_merge (d : ChatConfig) (o : LLMOverride) :
    resolveLLM d o =
      (if (if trimSpace o.baseURL ≠ "" then trimSpace o.baseURL
            else d.baseURL) = "" ∨
          (if trimSpace o.apiKey ≠ "" then trimSpace o.apiKey
            else d.apiKey) = "" ∨
          (if trimSpace o.model ≠ "" then trimSpace o.model
            else d.model) = "" then
        .failure .llmConfig
      else
        .success
          ⟨if trimSpace o.baseURL ≠ "" then trimSpace o.baseURL
              else d.baseURL,
            if trimSpace o.apiKey ≠ "" then trimSpace o.apiKey
              else d.apiKey,
            if trimSpace o.model ≠ "" then trimSpace o.model
              else d.model⟩) := by
  obtain ⟨db, dk, dm⟩ := d
  by_cases h1 : trimSpace o.baseURL = "" <;>
    by_cases h2 : trimSpace o.apiKey = "" <;>
      by_cases h3 : trimSpace o.model = "" <;>
        simp [resolveLLM, h1, h2, h3]

/-- C10: in both `SendMessage` and `StreamMessage`, the outcomes of the
cache-layer `MarkDirty` and `DeleteHistory` calls are discarded: the
returned result and the whole collaborator-call trace are unchanged under
any combination of those two outcomes, so the pipeline proceeds identically
to the enqueue and the model call. -/
theorem cache_invalidation_errors_ignored (env : ChatEnv)
    (input : SendMessageInput) (b1 b2 b1' b2' : Bool) :
    sendMessage { env with markDirtyOk := b1, deleteHistoryOk := b2 } input =
      sendMessage
        { env with markDirtyOk := b1', deleteHistoryOk := b2' } input ∧
    streamMessage { env with markDirtyOk := b1, deleteHistoryOk := b2 } input =
      streamMessage
        { env with markDirtyOk := b1', deleteHistoryOk := b2' } input := by
  cases env
  exact ⟨rfl, rfl⟩

/-- C4: whenever `SendMessage` reaches the user-turn enqueue and the publish
fails, the call returns `ErrMessageEnqueue` and the completion gateway is
never invoked. -/
theorem sendMessage_enqueue_failure_aborts (env : ChatEnv)
    (input : SendMessageInput)
    (hu : input.userID ≠ 0) (hs : input.sessionID ≠ 0)
    (hc : trimSpace input.content ≠ "")
    (hsess : ∃ s, env.sessionResult = .ok (some s))
    (hcfg : ∃ cfg, resolveLLM env.defaultLLM input.llm = .success cfg)
    (hrec : ∃ recent, env.recentResult = .ok recent)
    (hpub : env.hasPublisher = true)
    (hfail : env.publishUserOk = false) :
    (sendMessage env input).1 = .failure .messageEnqueue ∧
    CCall.complete ∉ (sendMessage env input).2 := by
  obtain ⟨s, hsess⟩ := hsess
  obtain ⟨cfg, hcfg⟩ := hcfg
  obtain ⟨recent, hrec⟩ := hrec
  simp only [sendMessage, hsess, hcfg, hrec, hpub, hfail]
  simp [hu, hs, hc]

/-- Witness for C4 at a concrete environment and input. -/
theorem sendMessage_enqueue_failure_aborts_witness :
    (sendMessage envEnqueueFail inputHello).1 = .failure .messageEnqueue ∧
    CCall.complete ∉ (sendMessage envEnqueueFail inputHello).2 :=
  sendMessage_enqueue_failure_aborts envEnqueueFail inputHello
    (by decide) (by decide) (by decide)
    ⟨⟨7, 1, "t"⟩, rfl⟩ ⟨⟨"https://api", "secretkey123", "gpt"⟩, by decide⟩
    ⟨[], rfl⟩ rfl rfl

/-- C5: in every `SendMessage` and `StreamMessage` execution (with the
history cache wired, as the server always does), whenever the pipeline
reaches an enqueue, the dirty marker was set strictly before the cache
entry was deleted, and both happened strictly before the first enqueue
(and hence before the assistant-turn enqueue as well). -/
theorem markDirty_deleteHistory_before_enqueue (env : ChatEnv)
    (input : SendMessageInput) (hcache : env.hasCache = true) :
    ((CCall.publishUser ∈ (sendMessage env input).2 ∨
        CCall.publishAssistant ∈ (sendMessage env input).2) →
      CCall.markDirty ∈ (sendMessage env input).2 ∧
      CCall.deleteHistory ∈ (sendMessage env input).2 ∧
      (sendMessage env input).2.indexOf CCall.markDirty <
        (sendMessage env input).2.indexOf CCall.deleteHistory ∧
      (sendMessage env input).2.indexOf CCall.deleteHistory <
        (sendMessage env input).2.indexOf CCall.publishUser ∧
      (sendMessage env input).2.indexOf CCall.deleteHistory <
        (sendMessage env input).2.indexOf CCall.publishAssistant) ∧
    ((CCall.publishUser ∈ (streamMessage env input).2 ∨
        CCall.publishAssistant ∈ (streamMessage env input).2) →
      CCall.markDirty ∈ (streamMessage env input).2 ∧
      CCall.deleteHistory ∈ (streamMessage env input).2 ∧
      (streamMessage env input).2.indexOf CCall.markDirty <
        (streamMessage env input).2.indexOf CCall.deleteHistory ∧
      (streamMessage env input).2.indexOf CCall.deleteHistory <
        (streamMessage env input).2.indexOf CCall.publishUser ∧
      (streamMessage env input).2.indexOf CCall.deleteHistory <
        (streamMessage env input).2.indexOf CCall.publishAssistant) := by
  constructor
  · simp only [sendMessage, hcache, if_true]
    split <;> try simp
    split <;> try simp
    split <;> try simp
    · split <;> try simp
      split <;> try simp
      split <;> try simp
      · split <;> try simp
        split <;> try simp
        · split <;> simp
  · simp only [streamMessage, hcache, if_true]
    split <;> try simp
    split <;> try simp
    split <;> try simp
    · split <;> try simp
      split <;> try simp
      split <;> try simp
      · split <;> try simp
        split <;> try simp
        · split <;> simp

/-- Witness for C5 at a concrete cache-wired environment and input. -/
theorem markDirty_deleteHistory_before_enqueue_witness :
    ((CCall.publishUser ∈ (sendMessage envAllOk inputHello).2 ∨
        CCall.publishAssistant ∈ (sendMessage envAllOk inputHello).2) →
      CCall.markDirty ∈ (sendMessage envAllOk inputHello).2 ∧
      CCall.deleteHistory ∈ (sendMessage envAllOk inputHello).2 ∧
      (sendMessage envAllOk inputHello).2.indexOf CCall.markDirty <
        (sendMessage envAllOk inputHello).2.indexOf CCall.deleteHistory ∧
      (sendMessage envAllOk inputHello).2.indexOf CCall.deleteHistory <
        (sendMessage envAllOk inputHello).2.indexOf CCall.publishUser ∧
      (sendMessage envAllOk inputHello).2.indexOf CCall.deleteHistory <
        (sendMessage envAllOk inputHello).2.indexOf CCall.publishAssistant) ∧
    ((CCall.publishUser ∈ (streamMessage envAllOk inputHello).2 ∨
        CCall.publishAssistant ∈ (streamMessage envAllOk inputHello).2) →
      CCall.markDirty ∈ (streamMessage envAllOk inputHello).2 ∧
      CCall.deleteHistory ∈ (streamMessage envAllOk inputHello).2 ∧
      (streamMessage envAllOk inputHello).2.indexOf CCall.markDirty <
        (streamMessage envAllOk inputHello).2.indexOf CCall.deleteHistory ∧
      (streamMessage envAllOk inputHello).2.indexOf CCall.deleteHistory <
        (streamMessage envAllOk inputHello).2.indexOf CCall.publishUser ∧
      (streamMessage envAllOk inputHello).2.indexOf CCall.deleteHistory <
        (streamMessage envAllOk inputHello).2.indexOf
          CCall.publishAssistant) :=
  markDirty_deleteHistory_before_enqueue envAllOk inputHello rfl

/-- C1: for a `GetHistory` call on an owned session (with the cache wired):
while the dirty marker is present at the first check the call never serves
the cache — the cache is not even read, the Message Store is read, and the
result is exactly the store outcome; and independently, a write-back into
the cache happens only when the dirty marker is absent (with no error) at
the check made after the store read, and then writes exactly the store
result. -/
theorem getHistory_dirty_marker_protocol (env : HistoryEnv)
    (userID sessionID : Nat) (limit : Int)
    (hu : userID ≠ 0) (hs : sessionID ≠ 0)
    (hsess : ∃ s, env.sessionResult = .ok (some s))
    (hcache : env.hasCache = true) :
    (env.dirtyPre = .ok true →
      HCall.cacheGet ∉ (getHistory env userID sessionID limit).trace ∧
      HCall.storeList ∈ (getHistory env userID sessionID limit).trace ∧
      (getHistory env userID sessionID limit).result =
        (if env.storeFails then .failure .repoFailure
          else .success (listBySessionID env.db sessionID limit))) ∧
    (∀ v, (getHistory env userID sessionID limit).cacheWrite = some v →
      env.dirtyPost = .ok false ∧ env.storeFails = false ∧
      v = listBySessionID env.db sessionID limit) := by
  obtain ⟨s, hsess⟩ := hsess
  simp only [getHistory, getHistoryStore, hsess, hcache, if_true]
  constructor
  · intro hdirty
    simp only [hdirty]
    cases hsf : env.storeFails <;>
      rcases hdp : env.dirtyPost with _ | ⟨_ | _⟩ <;>
        simp [hsf, hdp, hu, hs]
  · intro v
    rcases hd1 : env.dirtyPre with _ | ⟨_ | _⟩ <;>
      rcases hcv : env.cacheValue with _ | ⟨_ | _⟩ <;>
        cases hsf : env.storeFails <;>
          rcases hdp : env.dirtyPost with _ | ⟨_ | _⟩ <;>
            simp [hd1, hcv, hsf, hdp, hu, hs, eq_comm]

/-- Witness for C1 at a concrete environment whose marker is present at
both checks. -/
theorem getHistory_dirty_marker_protocol_witness :
    (envDirty.dirtyPre = .ok true →
      HCall.cacheGet ∉ (getHistory envDirty 1 7 10).trace ∧
      HCall.storeList ∈ (getHistory envDirty 1 7 10).trace ∧
      (getHistory envDirty 1 7 10).result =
        (if envDirty.storeFails then .failure .repoFailure
          else .success (listBySessionID envDirty.db 7 10))) ∧
    (∀ v, (getHistory envDirty 1 7 10).cacheWrite = some v →
      envDirty.dirtyPost = .ok false ∧ envDirty.storeFails = false ∧
      v = listBySessionID envDirty.db 7 10) :=
  getHistory_dirty_marker_protocol envDirty 1 7 10 (by decide) (by decide)
    ⟨⟨7, 1, "t"⟩, rfl⟩ rfl

/-- C2, evaluated at the failing input: with three persisted messages
(created at times 1, 2, 3) for session `7`, a clean dirty marker and a cold
cache, `GetHistory` with `limit = 2` returns the two oldest messages
(`ORDER BY created_at ASC LIMIT 2`), not the two most recent ones the claim
requires. -/
theorem getHistory_store_path_returns_oldest :
    (getHistory envColdCache 1 7 2).result = .success [msgA, msgB] ∧
    (getHistory envColdCache 1 7 2).result ≠ .success [msgB, msgC] := by
  constructor <;> decide

/-- C3, evaluated at the failing input: `chunkText` on a 25-codepoint input
with `size = 10`, `overlap = 2` emits a fourth, fully redundant chunk
(`runes[24:25]`, a suffix of the third chunk) after the clamped third
window, so the chunk lengths are `[10, 10, 9, 1]`, not the claimed
`[10, 10, 9]` at offsets `0, 8, 16`. -/
theorem chunkText_emits_trailing_subchunk :
    chunkText demo25 10 2 =
      [['A', 'B', 'C', 'D', 'E', 'F', 'G', 'H', 'I', 'J'],
       ['I', 'J', 'K', 'L', 'M', 'N', 'O', 'P', 'Q', 'R'],
       ['Q', 'R', 'S', 'T', 'U', 'V', 'W', 'X', 'Y'],
       ['Y']] ∧
    (chunkText demo25 10 2).map List.length ≠ [10, 10, 9] := by
  have h : chunkText demo25 10 2 =
      [['A', 'B', 'C', 'D', 'E', 'F', 'G', 'H', 'I', 'J'],
       ['I', 'J', 'K', 'L', 'M', 'N', 'O', 'P', 'Q', 'R'],
       ['Q', 'R', 'S', 'T', 'U', 'V', 'W', 'X', 'Y'],
       ['Y']] := by
    simp [chunkText, demo25]
    norm_num [chunkLoop]
  exact ⟨h, by rw [h]; decide⟩

/-- After one inner pass, the value left at slot `i` has maximal score
among the incoming slot value and the rest of the slice. -/
theorem selectOne_fst_max (a : Scored) (l : List Scored) :
    a.score ≤ (selectOne a l).1.score ∧
    ∀ x ∈ l, x.score ≤ (selectOne a l).1.score := by
  induction l generalizing a with
  | nil => simp [selectOne]
  | cons b rest ih =>
    by_cases h : a.score < b.score
    · simp only [selectOne, if_pos h]
      refine ⟨h.le.trans (ih b).1, ?_⟩
      intro x hx
      rcases List.mem_cons.mp hx with h1 | h1
      · subst h1
        exact (ih x).1
      · exact (ih b).2 x h1
    · simp only [selectOne, if_neg h]
      refine ⟨(ih a).1, ?_⟩
      intro x hx
      rcases List.mem_cons.mp hx with h1 | h1
      · subst h1
        exact (le_of_not_lt h).trans (ih a).1
      · exact (ih a).2 x h1

/-- One inner pass permutes the slice contents. -/
theorem selectOne_perm (a : Scored) (l : List Scored) :
    List.Perm ((selectOne a l).1 :: (selectOne a l).2) (a :: l) := by
  induction l generalizing a with
  | nil => simp [selectOne]
  | cons b rest ih =>
    by_cases h : a.score < b.score
    · simp only [selectOne, if_pos h]
      exact (List.Perm.swap a (selectOne b rest).1 _).trans ((ih b).cons a)
    · simp only [selectOne, if_neg h]
      exact ((List.Perm.swap b (selectOne a rest).1 _).trans
        (((ih a).cons b))).trans (List.Perm.swap a b rest)

/-- The exchange sort permutes its input. -/
theorem sortScored_perm : ∀ l : List Scored, List.Perm (sortScored l) l
  | [] => by
    rw [sortScored]
  | a :: rest => by
    have ih := sortScored_perm (selectOne a rest).2
    rw [sortScored]
    exact (ih.cons _).trans (selectOne_perm a rest)
termination_by l => l.length
decreasing_by
  simp only [selectOne_snd_length, List.length_cons]
  omega

/-- The exchange sort leaves the slice sorted by non-increasing score. -/
theorem sortScored_sorted :
    ∀ l : List Scored,
      (sortScored l).Pairwise (fun x y => y.score ≤ x.score)
  | [] => by simp [sortScored]
  | a :: rest => by
    have ih := sortScored_sorted (selectOne a rest).2
    rw [sortScored]
    refine List.pairwise_cons.mpr ⟨?_, ih⟩
    intro y hy
    have hy2 : y ∈ (selectOne a rest).2 :=
      (sortScored_perm (selectOne a rest).2).subset hy
    have hmem : y ∈ a :: rest :=
      (selectOne_perm a rest).subset (List.mem_cons_of_mem _ hy2)
    rcases List.mem_cons.mp hmem with h1 | h1
    · subst h1
      exact (selectOne_fst_max y rest).1
    · exact (selectOne_fst_max a rest).2 y h1
termination_by l => l.length
decreasing_by
  simp only [selectOne_snd_length, List.length_cons]
  omega

/-- C6 (amended): `topKScored` returns exactly `min K candidateCount` items
for `K > 0` (and none for `K ≤ 0` or no candidates), all drawn from the
candidate list and sorted by non-increasing score — with no guarantee on
the relative order of equal scores — and a `K ≤ 0` passed to `Ask`
resolves to the system default of `5`. -/
theorem topKScored_sorted_and_bounded (cands : List Scored) (k : Int) :
    ((topKScored cands k).length : Int) =
      (if k ≤ 0 ∨ cands = [] then 0 else min k (cands.length : Int)) ∧
    (topKScored cands k).Pairwise (fun x y => y.score ≤ x.score) ∧
    (∀ x ∈ topKScored cands k, x ∈ cands) ∧
    resolveTopK k = (if k ≤ 0 then 5 else k) := by
  refine ⟨?_, ?_, ?_, rfl⟩
  · unfold topKScored
    split
    · simp_all
    · rename_i h
      push_neg at h
      simp only [h, if_false]
      have hlen : (sortScored cands).length = cands.length :=
        (sortScored_perm cands).length_eq
      rw [List.length_take, hlen]
      by_cases hbig : k > (cands.length : Int)
      · rw [if_pos hbig]
        omega
      · rw [if_neg hbig]
        omega
  · unfold topKScored
    split
    · simp
    · exact List.Pairwise.sublist (List.take_sublist _ _)
        (sortScored_sorted cands)
  · intro x hx
    unfold topKScored at hx
    split at hx
    · simp at hx
    · exact (sortScored_perm cands).subset (List.mem_of_mem_take hx)

/-- Witness for the amended C6 at a concrete candidate list and `K`. -/
theorem topKScored_sorted_and_bounded_witness :
    ((topKScored [⟨⟨0, 0, "x"⟩, 2⟩, ⟨⟨2, 0, "z"⟩, 3⟩] 1).length : Int) =
      (if (1 : Int) ≤ 0 ∨
          ([⟨⟨0, 0, "x"⟩, 2⟩, ⟨⟨2, 0, "z"⟩, 3⟩] : List Scored) = [] then 0
        else min 1
          (([⟨⟨0, 0, "x"⟩, 2⟩, ⟨⟨2, 0, "z"⟩, 3⟩] :
            List Scored).length : Int)) ∧
    (topKScored [⟨⟨0, 0, "x"⟩, 2⟩, ⟨⟨2, 0, "z"⟩, 3⟩] 1).Pairwise
      (fun x y => y.score ≤ x.score) ∧
    (∀ x ∈ topKScored [⟨⟨0, 0, "x"⟩, 2⟩, ⟨⟨2, 0, "z"⟩, 3⟩] 1,
      x ∈ ([⟨⟨0, 0, "x"⟩, 2⟩, ⟨⟨2, 0, "z"⟩, 3⟩] : List Scored)) ∧
    resolveTopK 1 = (if (1 : Int) ≤ 0 then 5 else 1) :=
  topKScored_sorted_and_bounded [⟨⟨0, 0, "x"⟩, 2⟩, ⟨⟨2, 0, "z"⟩, 3⟩] 1

/-- C6, refuted as stated: on candidates with scores `[2, 2, 3]` in scan
order, the exchange sort moves the score-3 item to the front by swapping it
with the first score-2 item, so the two equal-score items come out in
reversed scan order. -/
theorem topKScored_not_scan_order_stable :
    topKScored [⟨⟨0, 0, "x"⟩, 2⟩, ⟨⟨1, 0, "y"⟩, 2⟩, ⟨⟨2, 0, "z"⟩, 3⟩] 3 =
      [⟨⟨2, 0, "z"⟩, 3⟩, ⟨⟨1, 0, "y"⟩, 2⟩, ⟨⟨0, 0, "x"⟩, 2⟩] ∧
    ([⟨⟨2, 0, "z"⟩, 3⟩, ⟨⟨1, 0, "y"⟩, 2⟩, ⟨⟨0, 0, "x"⟩, 2⟩] :
        List Scored) ≠
      [⟨⟨2, 0, "z"⟩, 3⟩, ⟨⟨0, 0, "x"⟩, 2⟩, ⟨⟨1, 0, "y"⟩, 2⟩] := by
  constructor
  · norm_num [topKScored, sortScored, selectOne]
    decide
  · decide

/-- Shifting the accumulator out of the squared-norm fold. -/
theorem foldl_sq_shift (l : List ℝ) (c : ℝ) :
    l.foldl (fun s x => s + x * x) c = c + sumSq l := by
  induction l generalizing c with
  | nil => simp [sumSq]
  | cons x xs ih =>
    simp only [sumSq, List.foldl_cons]
    rw [ih, ih]
    ring

/-- Unfolding `sumSq` over a cons. -/
theorem sumSq_cons (x : ℝ) (xs : List ℝ) :
    sumSq (x :: xs) = x * x + sumSq xs := by
  simp only [sumSq, List.foldl_cons]
  rw [foldl_sq_shift, foldl_sq_shift]
  ring

/-- A sum of squares is non-negative. -/
theorem sumSq_nonneg (l : List ℝ) : 0 ≤ sumSq l := by
  induction l with
  | nil => simp [sumSq]
  | cons x xs ih =>
    rw [sumSq_cons]
    nlinarith [mul_self_nonneg x]

/-- A sum of squares with a non-zero entry is positive. -/
theorem sumSq_pos_of_mem (l : List ℝ) (x : ℝ) (hx : x ∈ l) (hx0 : x ≠ 0) :
    0 < sumSq l := by
  induction l with
  | nil => cases hx
  | cons y ys ih =>
    rw [sumSq_cons]
    rcases List.mem_cons.mp hx with h1 | h1
    · subst h1
      nlinarith [mul_self_pos.mpr hx0, sumSq_nonneg ys]
    · nlinarith [ih h1, mul_self_nonneg y]

/-- A sum of squares over an all-zero list is zero. -/
theorem sumSq_of_all_zero (l : List ℝ) (h : ∀ x ∈ l, x = 0) :
    sumSq l = 0 := by
  induction l with
  | nil => simp [sumSq]
  | cons x xs ih =>
    rw [sumSq_cons, h x (List.mem_cons_self x xs),
      ih (fun y hy => h y (List.mem_cons_of_mem x hy))]
    ring

/-- Shifting the accumulator out of the dot-product fold. -/
theorem foldl_dot_shift (p : List (ℝ × ℝ)) (c : ℝ) :
    p.foldl (fun s q => s + q.1 * q.2) c =
      c + p.foldl (fun s q => s + q.1 * q.2) 0 := by
  induction p generalizing c with
  | nil => simp
  | cons q qs ih =>
    simp only [List.foldl_cons]
    rw [ih (c + q.1 * q.2), ih (0 + q.1 * q.2)]
    ring

/-- The dot product of a vector with itself is its squared norm. -/
theorem dotAcc_self (l : List ℝ) : dotAcc l l = sumSq l := by
  induction l with
  | nil => simp [dotAcc, sumSq]
  | cons x xs ih =>
    simp only [dotAcc, List.zip_cons_cons, List.foldl_cons] at ih ⊢
    rw [foldl_dot_shift, ih, sumSq_cons]
    ring

/-- C7: `cosineSimilarity v v = 1` for every vector with some non-zero
entry, and `cosineSimilarity a b = 0` whenever the lengths differ or either
vector is all-zero (in particular empty); the division is reached only
behind the positive-norm guard, so no division fault can occur. -/
theorem cosineSimilarity_self_and_degenerate :
    (∀ v : List ℝ, (∃ x ∈ v, x ≠ 0) → cosineSimilarity v v = 1) ∧
    (∀ a b : List ℝ, a.length ≠ b.length → cosineSimilarity a b = 0) ∧
    (∀ a b : List ℝ, (∀ x ∈ a, x = 0) → cosineSimilarity a b = 0) ∧
    (∀ a b : List ℝ, (∀ x ∈ b, x = 0) → cosineSimilarity a b = 0) := by
  refine ⟨?_, ?_, ?_, ?_⟩
  · rintro v ⟨x, hx, hx0⟩
    have hpos : 0 < sumSq v := sumSq_pos_of_mem v x hx hx0
    have hne : v.length ≠ 0 :=
      Nat.pos_iff_ne_zero.mp (List.length_pos.mpr (List.ne_nil_of_mem hx))
    rw [cosineSimilarity, if_neg (by simp [hne]),
      if_neg (by simp [not_le.mpr hpos]), dotAcc_self,
      Real.mul_self_sqrt hpos.le, div_self hpos.ne']
  · intro a b h
    rw [cosineSimilarity, if_pos (Or.inr h)]
  · intro a b h
    by_cases hlen : a.length = 0 ∨ a.length ≠ b.length
    · rw [cosineSimilarity, if_pos hlen]
    · rw [cosineSimilarity, if_neg hlen,
        if_pos (Or.inl (le_of_eq (sumSq_of_all_zero a h)))]
  · intro a b h
    by_cases hlen : a.length = 0 ∨ a.length ≠ b.length
    · rw [cosineSimilarity, if_pos hlen]
    · rw [cosineSimilarity, if_neg hlen,
        if_pos (Or.inr (le_of_eq (sumSq_of_all_zero b h)))]

/-- Witness for C7 at concrete vectors. -/
theorem cosineSimilarity_self_and_degenerate_witness :
    cosineSimilarity [1, 2] [1, 2] = 1 ∧
    cosineSimilarity [1] [1, 2] = 0 ∧
    cosineSimilarity [0, 0] [3, 4] = 0 ∧
    cosineSimilarity [3, 4] [0, 0] = 0 :=
  ⟨cosineSimilarity_self_and_degenerate.1 [1, 2]
      ⟨1, by norm_num, by norm_num⟩,
    cosineSimilarity_self_and_degenerate.2.1 [1] [1, 2] (by norm_num),
    cosineSimilarity_self_and_degenerate.2.2.1 [0, 0] [3, 4]
      (by norm_num),
    cosineSimilarity_self_and_degenerate.2.2.2 [3, 4] [0, 0]
      (by norm_num)⟩

end GopherAI
